import Mathlib

/-!
Verification development for the slidedesigner-ai persistence layer.

The embedding below follows the TypeScript sources:
* `DatabaseService` in src/services/fileApiService.ts (schema `SCHEMA_DDL`,
  CRUD operations, `persist`, `exportDatabase`, `importDatabase`, `reset`);
* `SessionService` in src/services/sessionService.ts (statistics and the
  image-history walk);
* `ProjectService` in src/services/projectService.ts (settings merge);
* `useAutoSave` in src/hooks/useAutoSave.ts (single-flight flush guard).

The SQLite database (sql.js with PRAGMA foreign_keys = ON) is modelled as a
record of tables, one list of rows per table, with the foreign-key actions
declared in `SCHEMA_DDL` (ON DELETE CASCADE / ON DELETE SET NULL) applied by
the delete operations, exactly as SQLite applies them when the pragma is on.
`ORDER BY created_at ASC` is modelled by insertion sort on the `createdAt`
field (SQLite guarantees a sorted order, not a particular stable order).
JSON settings objects are modelled as key-value lists in which a later entry
for a key overrides an earlier one, matching the JavaScript object-spread
semantics used by the services.
-/

namespace SlideDesigner

/-- Value of the images.generation_type column (TEXT, default initial). -/
inductive GenerationType where
  | initial
  | refinement
deriving DecidableEq, Repr

/-- Value of the conversations.role column (CHECK role IN (user, assistant)). -/
inductive ConvRole where
  | user
  | assistant
deriving DecidableEq, Repr

/-- Lookup in a JavaScript object modelled as a key-value list where a later
entry for the same key overrides an earlier one.  The object spread
expression used by the services appends the update entries after the
existing ones, so lookup prefers the suffix. -/
def objGet (l : List (String × Int)) (key : String) : Option Int :=
  match l with
  | [] => none
  | (k, v) :: rest =>
    match objGet rest key with
    | some w => some w
    | none => if k = key then some v else none

/-- Row of the users table. -/
structure UserRow where
  id : String
  name : String
  email : String
  createdAt : Nat
  updatedAt : Nat
  settings : List (String × Int)
deriving DecidableEq, Repr

/-- Row of the projects table. -/
structure ProjectRow where
  id : String
  ownerUserId : String
  name : String
  description : String
  createdAt : Nat
  updatedAt : Nat
  settings : List (String × Int)
deriving DecidableEq, Repr

/-- Row of the sessions table.  The complexity and resolution columns are
TEXT in the schema and are modelled as strings. -/
structure SessionRow where
  id : String
  projectId : String
  createdByUserId : String
  name : String
  createdAt : Nat
  updatedAt : Nat
  inputText : String
  complexity : String
  resolution : String
  designRequests : String
  styleImageBase64 : Option String
deriving DecidableEq, Repr

/-- Row of the images table.  estimated_cost_usd is a REAL column holding
cost values; it is modelled as a rational number. -/
structure ImageRow where
  id : String
  sessionId : String
  base64Data : String
  prompt : String
  createdAt : Nat
  inputTokens : Nat
  outputTokens : Nat
  estimatedCostUsd : ℚ
  generationType : GenerationType
  parentImageId : Option String
deriving DecidableEq, Repr

/-- Row of the conversations table. -/
structure ConversationRow where
  id : String
  sessionId : String
  imageId : Option String
  role : ConvRole
  content : String
  createdAt : Nat
  metadata : List (String × String)
deriving DecidableEq, Repr

/-- The tables of the SQLite database created by SCHEMA_DDL that the
verified operations touch (users, projects, sessions, images,
conversations). -/
structure Store where
  users : List UserRow
  projects : List ProjectRow
  sessions : List SessionRow
  images : List ImageRow
  conversations : List ConversationRow
deriving DecidableEq, Repr

/-- The empty database produced by running SCHEMA_DDL on a fresh database. -/
def Store.empty : Store :=
  { users := [], projects := [], sessions := [], images := [], conversations := [] }

/-- Primary-key well-formedness: every table has pairwise distinct ids.
SQLite enforces this through the PRIMARY KEY constraints of SCHEMA_DDL, so
every state of the real database satisfies it. -/
def Store.WF (st : Store) : Prop :=
  (st.users.map UserRow.id).Nodup ∧
  (st.projects.map ProjectRow.id).Nodup ∧
  (st.sessions.map SessionRow.id).Nodup ∧
  (st.images.map ImageRow.id).Nodup

instance (st : Store) : Decidable st.WF := by
  unfold Store.WF; infer_instance

/-- Error outcomes of the service layer.  initFailed, queryFailed,
persistFailed and notFound are the DatabaseError codes of
fileApiService.ts; sqlConstraint stands for the exception sql.js raises
when an INSERT violates a PRIMARY KEY or FOREIGN KEY constraint. -/
inductive DbError where
  | initFailed
  | queryFailed
  | persistFailed
  | notFound
  | sqlConstraint
deriving DecidableEq, Repr

/-- The mutable fields of the DatabaseService singleton: the working copy
(this.db, null until initialization), the sql.js module handle, and the
this.initialized flag. -/
structure DbHandle where
  db : Option Store
  sqlJs : Bool
  inited : Bool
deriving DecidableEq, Repr

/-- The DatabaseService together with its durable environment: the OPFS
file slot holding the last flushed snapshot, whether OPFS is available
(navigator.storage.getDirectory present), and whether a durable write
succeeds. -/
structure World where
  handle : DbHandle
  opfsFile : Option Store
  opfsAvailable : Bool
  writeOk : Bool
deriving DecidableEq, Repr

/-- Sort a list of rows by a natural-number key, ascending; models the SQL
ORDER BY created_at ASC clause. -/
def sortByKey {α : Type} (key : α → Nat) (l : List α) : List α :=
  l.insertionSort (fun a b => key a ≤ key b)

-- ============================================
-- Read operations (DatabaseService.get*)
-- ============================================

/-- DatabaseService.getUser: SELECT ... FROM users WHERE id = ?, returning
null when no row matches; throws QUERY_FAILED when this.db is null. -/
def DbHandle.getUser (h : DbHandle) (id : String) : Except DbError (Option UserRow) :=
  match h.db with
  | none => .error .queryFailed
  | some st => .ok (st.users.find? (fun u => u.id == id))

/-- DatabaseService.getProject: SELECT ... FROM projects WHERE id = ?. -/
def DbHandle.getProject (h : DbHandle) (id : String) : Except DbError (Option ProjectRow) :=
  match h.db with
  | none => .error .queryFailed
  | some st => .ok (st.projects.find? (fun p => p.id == id))

/-- DatabaseService.getSession: SELECT ... FROM sessions WHERE id = ?. -/
def DbHandle.getSession (h : DbHandle) (id : String) : Except DbError (Option SessionRow) :=
  match h.db with
  | none => .error .queryFailed
  | some st => .ok (st.sessions.find? (fun s => s.id == id))

/-- DatabaseService.getImage: SELECT ... FROM images WHERE id = ?. -/
def DbHandle.getImage (h : DbHandle) (id : String) : Except DbError (Option ImageRow) :=
  match h.db with
  | none => .error .queryFailed
  | some st => .ok (st.images.find? (fun i => i.id == id))

/-- DatabaseService.getImagesBySession: SELECT ... FROM images WHERE
session_id = ? ORDER BY created_at ASC. -/
def DbHandle.getImagesBySession (h : DbHandle) (sid : String) : Except DbError (List ImageRow) :=
  match h.db with
  | none => .error .queryFailed
  | some st => .ok (sortByKey ImageRow.createdAt (st.images.filter (fun i => i.sessionId == sid)))

/-- DatabaseService.getConversationsBySession: SELECT ... FROM conversations
WHERE session_id = ? ORDER BY created_at ASC. -/
def DbHandle.getConversationsBySession (h : DbHandle) (sid : String) :
    Except DbError (List ConversationRow) :=
  match h.db with
  | none => .error .queryFailed
  | some st => .ok (sortByKey ConversationRow.createdAt
      (st.conversations.filter (fun c => c.sessionId == sid)))

/-- DatabaseService.getSessionsByProject: SELECT ... FROM sessions WHERE
project_id = ? ORDER BY updated_at DESC (descending order modelled by
sorting on the negated comparison). -/
def DbHandle.getSessionsByProject (h : DbHandle) (pid : String) :
    Except DbError (List SessionRow) :=
  match h.db with
  | none => .error .queryFailed
  | some st => .ok ((st.sessions.filter (fun s => s.projectId == pid)).insertionSort
      (fun a b => b.updatedAt ≤ a.updatedAt))

-- ============================================
-- Store-level mutations (SQL statements run by DatabaseService with
-- PRAGMA foreign_keys = ON)
-- ============================================

/-- INSERT INTO users: fails on a duplicate primary key or duplicate email
(email UNIQUE).  Models db.run in DatabaseService.createUser, which supplies
now for both timestamps. -/
def Store.insertUser (st : Store) (id name email : String) (now : Nat)
    (settings : List (String × Int)) : Except DbError Store :=
  if st.users.any (fun u => u.id == id) then .error .sqlConstraint
  else if st.users.any (fun u => u.email == email) then .error .sqlConstraint
  else .ok { st with users := st.users ++
    [{ id := id, name := name, email := email, createdAt := now, updatedAt := now,
       settings := settings }] }

/-- INSERT INTO projects: primary key must be fresh and owner_user_id must
resolve (FOREIGN KEY to users with the pragma on).  Models db.run in
DatabaseService.createProject, which generates the id and timestamps. -/
def Store.insertProject (st : Store) (id ownerUserId name description : String)
    (now : Nat) (settings : List (String × Int)) : Except DbError Store :=
  if st.projects.any (fun p => p.id == id) then .error .sqlConstraint
  else if ¬ st.users.any (fun u => u.id == ownerUserId) then .error .sqlConstraint
  else .ok { st with projects := st.projects ++
    [{ id := id, ownerUserId := ownerUserId, name := name, description := description,
       createdAt := now, updatedAt := now, settings := settings }] }

/-- INSERT INTO sessions: primary key fresh, project_id and
created_by_user_id must resolve.  Models db.run in
DatabaseService.createSession. -/
def Store.insertSession (st : Store) (id projectId createdByUserId name : String)
    (now : Nat) (inputText complexity resolution designRequests : String)
    (styleImageBase64 : Option String) : Except DbError Store :=
  if st.sessions.any (fun s => s.id == id) then .error .sqlConstraint
  else if ¬ st.projects.any (fun p => p.id == projectId) then .error .sqlConstraint
  else if ¬ st.users.any (fun u => u.id == createdByUserId) then .error .sqlConstraint
  else .ok { st with sessions := st.sessions ++
    [{ id := id, projectId := projectId, createdByUserId := createdByUserId,
       name := name, createdAt := now, updatedAt := now, inputText := inputText,
       complexity := complexity, resolution := resolution,
       designRequests := designRequests, styleImageBase64 := styleImageBase64 }] }

/-- The caller-supplied fields of DatabaseService.saveImage (the image
argument without id and createdAt). -/
structure NewImage where
  sessionId : String
  base64Data : String
  prompt : String
  inputTokens : Nat
  outputTokens : Nat
  estimatedCostUsd : ℚ
  generationType : GenerationType
  parentImageId : Option String
deriving DecidableEq, Repr

/-- The row DatabaseService.saveImage inserts and returns for a generated
id and timestamp. -/
def NewImage.toRow (img : NewImage) (id : String) (now : Nat) : ImageRow :=
  { id := id, sessionId := img.sessionId, base64Data := img.base64Data,
    prompt := img.prompt, createdAt := now, inputTokens := img.inputTokens,
    outputTokens := img.outputTokens, estimatedCostUsd := img.estimatedCostUsd,
    generationType := img.generationType, parentImageId := img.parentImageId }

/-- INSERT INTO images run by DatabaseService.saveImage: the primary key
must be fresh, session_id must resolve, and parent_image_id, when set, must
resolve in the table as it stands after the insertion (SQLite checks the
FOREIGN KEY against the post-insert table, so a row whose parent equals its
own fresh id also passes).  No constraint ties generation_type to
parent_image_id. -/
def Store.insertImage (st : Store) (id : String) (now : Nat) (img : NewImage) :
    Except DbError Store :=
  if st.images.any (fun i => i.id == id) then .error .sqlConstraint
  else if ¬ st.sessions.any (fun s => s.id == img.sessionId) then .error .sqlConstraint
  else
    match img.parentImageId with
    | none => .ok { st with images := st.images ++ [img.toRow id now] }
    | some pid =>
      if pid == id ∨ st.images.any (fun i => i.id == pid) then
        .ok { st with images := st.images ++ [img.toRow id now] }
      else .error .sqlConstraint

/-- DELETE FROM projects WHERE id = ? with foreign keys on: sessions of the
project cascade away, which cascades their images and conversations; every
surviving image whose parent was cascaded away has parent_image_id set to
NULL, and every surviving conversation referencing a cascaded image has
image_id set to NULL (the ON DELETE actions of SCHEMA_DDL). -/
def Store.deleteProject (st : Store) (pid : String) : Store :=
  let deadSessions := (st.sessions.filter (fun s => s.projectId == pid)).map SessionRow.id
  let deadImages := (st.images.filter (fun i => deadSessions.contains i.sessionId)).map ImageRow.id
  { st with
    projects := st.projects.filter (fun p => !(p.id == pid)),
    sessions := st.sessions.filter (fun s => !(s.projectId == pid)),
    images := (st.images.filter (fun i => !(deadSessions.contains i.sessionId))).map
      (fun i =>
        match i.parentImageId with
        | some q => if deadImages.contains q then { i with parentImageId := none } else i
        | none => i),
    conversations := (st.conversations.filter
        (fun c => !(deadSessions.contains c.sessionId))).map
      (fun c =>
        match c.imageId with
        | some q => if deadImages.contains q then { c with imageId := none } else c
        | none => c) }

/-- DELETE FROM images WHERE id = ? with foreign keys on: surviving images
whose parent_image_id references the deleted row get parent_image_id set to
NULL; conversations referencing it get image_id set to NULL. -/
def Store.deleteImage (st : Store) (iid : String) : Store :=
  { st with
    images := (st.images.filter (fun i => !(i.id == iid))).map
      (fun i => if i.parentImageId = some iid then { i with parentImageId := none } else i),
    conversations := st.conversations.map
      (fun c => if c.imageId = some iid then { c with imageId := none } else c) }

/-- The partial update object of DatabaseService.updateProject: only the
supplied fields are written, and updated_at is always refreshed. -/
structure ProjectUpdates where
  name : Option String
  description : Option String
  settings : Option (List (String × Int))
deriving DecidableEq, Repr

/-- UPDATE projects SET ... WHERE id = ?: touches every row matching the id
(at most one under the primary key), leaves the rest unchanged. -/
def Store.updateProject (st : Store) (id : String) (u : ProjectUpdates) (now : Nat) : Store :=
  { st with projects := st.projects.map (fun p =>
      if p.id == id then
        { p with
          updatedAt := now,
          name := u.name.getD p.name,
          description := u.description.getD p.description,
          settings := u.settings.getD p.settings }
      else p) }

-- ============================================
-- Snapshot store (DatabaseService.persist / exportDatabase /
-- importDatabase / reset)
-- ============================================

/-- DatabaseService.persist: throws PERSIST_FAILED when this.db is null;
when OPFS is unsupported it logs a warning and returns successfully without
writing; otherwise it writes the exported working copy to the OPFS file,
and a failing write throws PERSIST_FAILED while leaving the working copy
untouched. -/
def World.persist (w : World) : World × Except DbError Unit :=
  match w.handle.db with
  | none => (w, .error .persistFailed)
  | some st =>
    if w.opfsAvailable then
      if w.writeOk then ({ w with opfsFile := some st }, .ok ())
      else (w, .error .persistFailed)
    else (w, .ok ())

/-- DatabaseService.exportDatabase: returns the full snapshot of the
working copy (this.db.export()); throws QUERY_FAILED when this.db is null.
The sql.js byte serialization is faithful, so the snapshot is modelled by
the store value itself. -/
def World.exportDatabase (w : World) : Except DbError Store :=
  match w.handle.db with
  | none => .error .queryFailed
  | some st => .ok st

/-- DatabaseService.importDatabase: requires the sql.js module handle
(INIT_FAILED otherwise), closes any current working copy, replaces it with
the database reconstructed from the imported snapshot, and persists
immediately. -/
def World.importDatabase (w : World) (data : Store) : World × Except DbError Unit :=
  if w.handle.sqlJs then
    World.persist { w with handle := { w.handle with db := some data } }
  else (w, .error .initFailed)

/-- DatabaseService.reset: closes and drops the working copy, clears the
initialization flag, and removes the OPFS file (ignoring a missing file;
when OPFS is unavailable the removal is skipped). -/
def World.reset (w : World) : World :=
  { w with
    handle := { w.handle with db := none, inited := false },
    opfsFile := if w.opfsAvailable then none else w.opfsFile }

-- ============================================
-- DatabaseService mutations (store mutation followed by persist)
-- ============================================

/-- Replace the working copy of a world. -/
def World.withDb (w : World) (st : Store) : World :=
  { w with handle := { w.handle with db := some st } }

/-- DatabaseService.saveImage: QUERY_FAILED when this.db is null; runs the
INSERT (which may throw on a constraint violation, leaving the store
unchanged), then awaits persist; a persist failure propagates to the caller
after the row is already in the working copy.  On success it returns the
materialized row. -/
def World.saveImage (w : World) (id : String) (now : Nat) (img : NewImage) :
    World × Except DbError ImageRow :=
  match w.handle.db with
  | none => (w, .error .queryFailed)
  | some st =>
    match st.insertImage id now img with
    | .error e => (w, .error e)
    | .ok st1 =>
      match (w.withDb st1).persist with
      | (w2, .ok _) => (w2, .ok (img.toRow id now))
      | (w2, .error e) => (w2, .error e)

/-- DatabaseService.deleteProject: QUERY_FAILED when this.db is null;
otherwise DELETE FROM projects WHERE id = ? (with its cascades) followed by
persist. -/
def World.deleteProject (w : World) (pid : String) : World × Except DbError Unit :=
  match w.handle.db with
  | none => (w, .error .queryFailed)
  | some st => (w.withDb (st.deleteProject pid)).persist

/-- DatabaseService.deleteImage: QUERY_FAILED when this.db is null;
otherwise DELETE FROM images WHERE id = ? (with its SET NULL actions)
followed by persist. -/
def World.deleteImage (w : World) (iid : String) : World × Except DbError Unit :=
  match w.handle.db with
  | none => (w, .error .queryFailed)
  | some st => (w.withDb (st.deleteImage iid)).persist

/-- DatabaseService.updateProject: QUERY_FAILED when this.db is null;
otherwise the UPDATE statement followed by persist. -/
def World.updateProject (w : World) (id : String) (u : ProjectUpdates) (now : Nat) :
    World × Except DbError Unit :=
  match w.handle.db with
  | none => (w, .error .queryFailed)
  | some st => (w.withDb (st.updateProject id u now)).persist

-- ============================================
-- ProjectService (src/services/projectService.ts)
-- ============================================

/-- ProjectService.updateProject: runs dbService.updateProject, re-reads
the project and fails when it is absent. -/
def ProjectService.updateProject (w : World) (id : String) (u : ProjectUpdates)
    (now : Nat) : World × Except DbError ProjectRow :=
  match World.updateProject w id u now with
  | (w1, .error e) => (w1, .error e)
  | (w1, .ok _) =>
    match w1.handle.getProject id with
    | .error e => (w1, .error e)
    | .ok none => (w1, .error .notFound)
    | .ok (some p) => (w1, .ok p)

/-- ProjectService.updateProjectSettings: reads the project (failing when
absent), merges the stored settings with the partial settings by object
spread (update entries override), and stores the merged map through
updateProject. -/
def ProjectService.updateProjectSettings (w : World) (id : String)
    (settings : List (String × Int)) (now : Nat) : World × Except DbError ProjectRow :=
  match w.handle.getProject id with
  | .error e => (w, .error e)
  | .ok none => (w, .error .notFound)
  | .ok (some p) =>
    ProjectService.updateProject w id
      { name := none, description := none, settings := some (p.settings ++ settings) } now

-- ============================================
-- SessionService (src/services/sessionService.ts)
-- ============================================

/-- The record returned by SessionService.getSessionStats. -/
structure SessionStats where
  imageCount : Nat
  totalCost : ℚ
  inputTokens : Nat
  outputTokens : Nat
  totalTokens : Nat
deriving DecidableEq, Repr

/-- SessionService.getSessionStats: loads the images of the session and
folds the per-image counters with reduce, starting from zero; totalTokens
is computed as inputTokens + outputTokens. -/
def SessionService.getSessionStats (h : DbHandle) (sid : String) :
    Except DbError SessionStats :=
  match h.getImagesBySession sid with
  | .error e => .error e
  | .ok images =>
    let inputT := images.foldl (fun total img => total + img.inputTokens) 0
    let outputT := images.foldl (fun total img => total + img.outputTokens) 0
    .ok { imageCount := images.length,
          totalCost := images.foldl (fun total img => total + img.estimatedCostUsd) 0,
          inputTokens := inputT,
          outputTokens := outputT,
          totalTokens := inputT + outputT }

/-- The loop body of SessionService.getImageHistory.  The source is
  while (currentImage) { history.unshift(currentImage);
    if (currentImage.parentImageId) currentImage = await getImage(parent)
    else break }
with no iteration bound of any kind.  The fuel argument is only the
embedding device for the unbounded loop: the loop terminates with result h
exactly when some fuel returns some h, and it runs forever exactly when
every fuel returns none. -/
def imageHistoryLoop (st : Store) : Nat → Option ImageRow → List ImageRow →
    Option (List ImageRow)
  | fuel, cur, acc =>
    match cur with
    | none => some acc
    | some img =>
      match fuel with
      | 0 => none
      | fuel + 1 =>
        match img.parentImageId with
        | none => some (img :: acc)
        | some pid =>
          imageHistoryLoop st fuel (st.images.find? (fun i => i.id == pid)) (img :: acc)

/-- SessionService.getImageHistory run with the given fuel (see
imageHistoryLoop); the initial current image is getImage(imageId). -/
def SessionService.getImageHistory (st : Store) (imageId : String) (fuel : Nat) :
    Option (List ImageRow) :=
  imageHistoryLoop st fuel (st.images.find? (fun i => i.id == imageId)) []

-- ============================================
-- Auto-persist scheduler (src/hooks/useAutoSave.ts)
-- ============================================

/-- Observable scheduler state of useAutoSave: the isSavingRef guard flag
and the number of persist calls currently in flight. -/
structure AutoSaveState where
  isSaving : Bool
  inFlight : Nat
deriving DecidableEq, Repr

/-- Events acting on the scheduler: a flush trigger (a timer tick, a
visibility change, or a manual saveNow call) and the completion of an
in-flight persist, successful or failed. -/
inductive AutoSaveEvent where
  | trigger
  | completeOk
  | completeFail
deriving DecidableEq, Repr

/-- One step of the useAutoSave state machine.  A trigger returns at once
when isSavingRef.current is set (the early return of saveNow) and otherwise
sets the guard and starts one persist; a completion runs the finally block,
clearing the guard, in both the success and the failure branch. -/
def autoSaveStep (s : AutoSaveState) : AutoSaveEvent → AutoSaveState
  | .trigger =>
    if s.isSaving then s
    else { isSaving := true, inFlight := s.inFlight + 1 }
  | .completeOk => { isSaving := false, inFlight := s.inFlight - 1 }
  | .completeFail => { isSaving := false, inFlight := s.inFlight - 1 }

/-- The scheduler state reached from the initial state (guard clear,
nothing in flight) by a sequence of events. -/
def autoSaveRun (events : List AutoSaveEvent) : AutoSaveState :=
  events.foldl autoSaveStep { isSaving := false, inFlight := 0 }

-- ============================================
-- Helper lemmas
-- ============================================

/-- persist never touches the service handle: it only writes the durable
slot. -/
theorem World.persist_fst_handle (w : World) : (World.persist w).1.handle = w.handle := by
  unfold World.persist
  cases h : w.handle.db with
  | none => rfl
  | some st =>
    by_cases ha : w.opfsAvailable = true
    · by_cases hw : w.writeOk = true
      · simp [ha, hw]
      · simp [ha, hw]
    · simp [ha]

/-- A fold that adds a projection of every element equals the initial value
plus the sum of the projected list. -/
theorem foldl_add_map {α M : Type} [AddCommMonoid M] (f : α → M) (l : List α) (init : M) :
    l.foldl (fun total x => total + f x) init = init + (l.map f).sum := by
  induction l generalizing init with
  | nil => simp
  | cons x xs ih => simp [ih, add_assoc]

/-- Sorting by a key is a permutation of the input. -/
theorem sortByKey_perm {α : Type} (key : α → Nat) (l : List α) :
    (sortByKey key l).Perm l := by
  exact List.perm_insertionSort _ l

/-- find? commutes with a map that does not change the truth of the
predicate. -/
theorem find?_map_congr {α : Type} (f : α → α) (p : α → Bool)
    (hp : ∀ x, p (f x) = p x) (l : List α) :
    (l.map f).find? p = (l.find? p).map f := by
  induction l with
  | nil => rfl
  | cons x xs ih =>
    by_cases h : p x = true
    · rw [List.map_cons, List.find?_cons_of_pos _ (by rw [hp]; exact h),
        List.find?_cons_of_pos _ h]
      rfl
    · rw [List.map_cons, List.find?_cons_of_neg _ (by rw [hp]; simpa using h),
        List.find?_cons_of_neg _ (by simpa using h), ih]

/-- Under a duplicate-free key column, find? on the key of a member returns
exactly that member. -/
theorem find?_key_of_mem_nodup {α : Type} (key : α → String) (l : List α) (x : α)
    (hnd : (l.map key).Nodup) (hx : x ∈ l) :
    l.find? (fun y => key y == key x) = some x := by
  induction l with
  | nil => cases hx
  | cons a as ih =>
    rw [List.map_cons, List.nodup_cons] at hnd
    rcases List.mem_cons.mp hx with rfl | hmem
    · exact List.find?_cons_of_pos _ (by simp)
    · have hne : key a ≠ key x := by
        intro h
        exact hnd.1 (h ▸ List.mem_map_of_mem key hmem)
      rw [List.find?_cons_of_neg _ (by simpa using hne)]
      exact ih hnd.2 hmem

/-- Members of a list with a duplicate-free key column are determined by
their key. -/
theorem key_inj_of_nodup {α : Type} (key : α → String) (l : List α)
    (hnd : (l.map key).Nodup) {x y : α} (hx : x ∈ l) (hy : y ∈ l)
    (hkey : key x = key y) : x = y :=
  List.inj_on_of_nodup_map hnd hx hy hkey

/-- Lookup in the concatenation of two objects prefers the suffix, which is
exactly the object-spread override semantics. -/
theorem objGet_append (l1 l2 : List (String × Int)) (k : String) :
    objGet (l1 ++ l2) k = ((objGet l2 k).rec (objGet l1 k) (fun w => some w)) := by
  induction l1 with
  | nil => cases h : objGet l2 k <;> simp [objGet, h]
  | cons x xs ih =>
    cases x with
    | mk key v =>
      cases h : objGet l2 k with
      | none => simp only [h] at ih ⊢; simp [objGet, List.cons_append, ih, h]
      | some w => simp only [h] at ih ⊢; simp [objGet, List.cons_append, ih, h]

/-- Lookup in a one-entry object. -/
theorem objGet_singleton (k key : String) (v : Int) :
    objGet [(key, v)] k = if key = k then some v else none := by
  simp [objGet]

/-- The single-flight invariant of the auto-save machine: the number of
persist calls in flight is one when the guard is set and zero otherwise. -/
def AutoSaveInv (s : AutoSaveState) : Prop :=
  s.inFlight = if s.isSaving then 1 else 0

/-- Every event preserves the single-flight invariant. -/
theorem autoSaveStep_inv (s : AutoSaveState) (e : AutoSaveEvent) (h : AutoSaveInv s) :
    AutoSaveInv (autoSaveStep s e) := by
  unfold AutoSaveInv at h ⊢
  cases e with
  | trigger =>
    by_cases hs : s.isSaving = true
    · simp [autoSaveStep, hs]
      rw [if_pos hs] at h
      simpa [hs] using h
    · simp at hs
      simp [autoSaveStep, hs]
      rw [if_neg (by simp [hs])] at h
      simp [h]
  | completeOk =>
    by_cases hs : s.isSaving = true <;> simp [autoSaveStep, hs] <;>
      [rw [if_pos hs] at h; rw [if_neg hs] at h] <;> simp [h]
  | completeFail =>
    by_cases hs : s.isSaving = true <;> simp [autoSaveStep, hs] <;>
      [rw [if_pos hs] at h; rw [if_neg hs] at h] <;> simp [h]

/-- Every run from the initial state satisfies the single-flight
invariant. -/
theorem autoSaveRun_inv (events : List AutoSaveEvent) : AutoSaveInv (autoSaveRun events) := by
  unfold autoSaveRun
  have hbase : AutoSaveInv { isSaving := false, inFlight := 0 } := by
    unfold AutoSaveInv; simp
  generalize hstart : ({ isSaving := false, inFlight := 0 } : AutoSaveState) = s0
  rw [hstart] at hbase
  clear hstart
  induction events generalizing s0 with
  | nil => simpa using hbase
  | cons e es ih => exact ih _ (autoSaveStep_inv s0 e hbase)

-- ============================================
-- Claim theorems
-- ============================================

/-- C8: the auto-persist scheduler never has more than one flush in flight
(every run from the initial state keeps the in-flight count at most one); a
saveNow trigger arriving while a flush is in progress returns without
starting a second flush (the state is unchanged); and the state returns to
not-flushing when the flush completes, whether it succeeds or fails. -/
theorem autoSave_single_flight :
    (∀ events : List AutoSaveEvent, (autoSaveRun events).inFlight ≤ 1) ∧
    (∀ s : AutoSaveState, s.isSaving = true → autoSaveStep s .trigger = s) ∧
    (∀ s : AutoSaveState,
      (autoSaveStep s .completeOk).isSaving = false ∧
      (autoSaveStep s .completeFail).isSaving = false) := by
  refine ⟨?_, ?_, ?_⟩
  · intro events
    have h := autoSaveRun_inv events
    unfold AutoSaveInv at h
    rw [h]
    by_cases hs : (autoSaveRun events).isSaving = true <;> simp [hs]
  · intro s hs
    simp [autoSaveStep, hs]
  · intro s
    exact ⟨rfl, rfl⟩

/-- C8 witness: a concrete run (trigger, trigger during the flush, then
completion) keeps at most one flush in flight, and a trigger in a flushing
state is dropped. -/
theorem autoSave_single_flight_witness :
    (autoSaveRun [.trigger, .trigger, .completeFail]).inFlight ≤ 1 ∧
    autoSaveStep { isSaving := true, inFlight := 1 } .trigger
      = { isSaving := true, inFlight := 1 } := by
  exact ⟨autoSave_single_flight.1 [.trigger, .trigger, .completeFail],
    autoSave_single_flight.2.1 { isSaving := true, inFlight := 1 } (by decide)⟩

/-- C9: once the store is initialized (the working copy exists), every
read-by-id operation — getUser, getProject, getSession, getImage — on an id
that matches no row returns the explicit absent value ok none, never an
error. -/
theorem reads_return_absent_on_missing (h : DbHandle) (st : Store) (id : String)
    (hdb : h.db = some st)
    (hu : ∀ u ∈ st.users, u.id ≠ id)
    (hp : ∀ p ∈ st.projects, p.id ≠ id)
    (hs : ∀ s ∈ st.sessions, s.id ≠ id)
    (hi : ∀ i ∈ st.images, i.id ≠ id) :
    h.getUser id = .ok none ∧ h.getProject id = .ok none ∧
    h.getSession id = .ok none ∧ h.getImage id = .ok none := by
  refine ⟨?_, ?_, ?_, ?_⟩
  · unfold DbHandle.getUser
    rw [hdb]
    have : st.users.find? (fun u => u.id == id) = none := by
      rw [List.find?_eq_none]
      intro u hmem
      simpa using hu u hmem
    simp [this]
  · unfold DbHandle.getProject
    rw [hdb]
    have : st.projects.find? (fun p => p.id == id) = none := by
      rw [List.find?_eq_none]
      intro p hmem
      simpa using hp p hmem
    simp [this]
  · unfold DbHandle.getSession
    rw [hdb]
    have : st.sessions.find? (fun s => s.id == id) = none := by
      rw [List.find?_eq_none]
      intro s hmem
      simpa using hs s hmem
    simp [this]
  · unfold DbHandle.getImage
    rw [hdb]
    have : st.images.find? (fun i => i.id == id) = none := by
      rw [List.find?_eq_none]
      intro i hmem
      simpa using hi i hmem
    simp [this]

/-- A one-user concrete store for witnesses. -/
def witnessUser : UserRow :=
  { id := "default-user-001", name := "Default User", email := "user@example.com",
    createdAt := 0, updatedAt := 0, settings := [] }

/-- A concrete store holding one user and nothing else. -/
def witnessStore1 : Store :=
  { users := [witnessUser], projects := [], sessions := [], images := [],
    conversations := [] }

/-- C9 witness: on the concrete one-user store, reading the missing id
"zzz" yields ok none for all four read-by-id operations. -/
theorem reads_return_absent_on_missing_witness :
    ({ db := some witnessStore1, sqlJs := true, inited := true } : DbHandle).getUser "zzz"
        = .ok none ∧
    ({ db := some witnessStore1, sqlJs := true, inited := true } : DbHandle).getProject "zzz"
        = .ok none ∧
    ({ db := some witnessStore1, sqlJs := true, inited := true } : DbHandle).getSession "zzz"
        = .ok none ∧
    ({ db := some witnessStore1, sqlJs := true, inited := true } : DbHandle).getImage "zzz"
        = .ok none := by
  exact reads_return_absent_on_missing _ witnessStore1 "zzz" rfl
    (by decide) (by decide) (by decide) (by decide)

/-- The working copy after the dbService UPDATE on projects. -/
theorem World.updateProject_fst_db (w : World) (st : Store) (id : String)
    (u : ProjectUpdates) (now : Nat) (hdb : w.handle.db = some st) :
    (World.updateProject w id u now).1.handle.db = some (st.updateProject id u now) := by
  unfold World.updateProject
  rw [hdb]
  simp [World.persist_fst_handle, World.withDb]

/-- The ProjectService.updateProject wrapper returns the same world as the
underlying dbService call: the re-read never mutates. -/
theorem ProjectService.updateProject_fst (w : World) (id : String)
    (u : ProjectUpdates) (now : Nat) :
    (ProjectService.updateProject w id u now).1 = (World.updateProject w id u now).1 := by
  unfold ProjectService.updateProject
  rcases h : World.updateProject w id u now with ⟨w1, r⟩
  cases r with
  | error e => rfl
  | ok _ =>
    cases hg : w1.handle.getProject id with
    | error e => simp [hg]
    | ok o => cases o <;> simp [hg]

/-- The UPDATE statement preserves ids, so looking a project up by id after
the update returns the mapped row. -/
theorem updateProject_find? (st : Store) (id : String) (u : ProjectUpdates) (now : Nat) :
    (st.updateProject id u now).projects.find? (fun p => p.id == id)
      = (st.projects.find? (fun p => p.id == id)).map (fun p =>
          if p.id == id then
            { p with
              updatedAt := now,
              name := u.name.getD p.name,
              description := u.description.getD p.description,
              settings := u.settings.getD p.settings }
          else p) := by
  unfold Store.updateProject
  apply find?_map_congr
  intro p
  by_cases h : p.id == id <;> simp [h]

/-- C10: updating the settings of a stored workspace first with one entry
and then with another (distinct) entry leaves the final stored settings
equal to the merge of the two updates over the original settings: the first
key maps to its value, the second key maps to its value, and every other
key keeps its original value — the partial update never replaces the whole
map. -/
theorem updateProjectSettings_merges (w : World) (st : Store) (p : ProjectRow)
    (id k1 k2 : String) (v1 v2 : Int) (now1 now2 : Nat)
    (hdb : w.handle.db = some st)
    (hfind : st.projects.find? (fun q => q.id == id) = some p)
    (hkeys : k1 ≠ k2) :
    ∃ p2 : ProjectRow,
      ((ProjectService.updateProjectSettings
          (ProjectService.updateProjectSettings w id [(k1, v1)] now1).1
          id [(k2, v2)] now2).1).handle.getProject id = .ok (some p2) ∧
      objGet p2.settings k1 = some v1 ∧
      objGet p2.settings k2 = some v2 ∧
      ∀ k, k ≠ k1 → k ≠ k2 → objGet p2.settings k = objGet p.settings k := by
  have hpid : (p.id == id) = true := by
    have := List.find?_some (p := fun q : ProjectRow => q.id == id) hfind
    simpa using this
  have hpid' : p.id = id := by simpa using hpid
  -- the first call
  have hget : w.handle.getProject id = .ok (some p) := by
    unfold DbHandle.getProject
    rw [hdb]
    simp [hfind]
  set u1 : ProjectUpdates :=
    { name := none, description := none, settings := some (p.settings ++ [(k1, v1)]) } with hu1
  have hstep1 : (ProjectService.updateProjectSettings w id [(k1, v1)] now1).1
      = (World.updateProject w id u1 now1).1 := by
    unfold ProjectService.updateProjectSettings
    rw [hget]
    exact ProjectService.updateProject_fst w id u1 now1
  set st1 := st.updateProject id u1 now1 with hst1
  have hdb1 : (ProjectService.updateProjectSettings w id [(k1, v1)] now1).1.handle.db
      = some st1 := by
    rw [hstep1]
    exact World.updateProject_fst_db w st id u1 now1 hdb
  -- the project as the second call reads it
  set p1 : ProjectRow :=
    { p with updatedAt := now1, settings := p.settings ++ [(k1, v1)] } with hp1
  have hfind1 : st1.projects.find? (fun q => q.id == id) = some p1 := by
    rw [hst1, updateProject_find?, hfind]
    simp [hpid', hu1, hp1]
  have hget1 : (ProjectService.updateProjectSettings w id [(k1, v1)] now1).1.handle.getProject id
      = .ok (some p1) := by
    unfold DbHandle.getProject
    rw [hdb1]
    simp [hfind1]
  -- the second call
  set w1 := (ProjectService.updateProjectSettings w id [(k1, v1)] now1).1 with hw1
  set u2 : ProjectUpdates :=
    { name := none, description := none,
      settings := some (p1.settings ++ [(k2, v2)]) } with hu2
  have hstep2 : (ProjectService.updateProjectSettings w1 id [(k2, v2)] now2).1
      = (World.updateProject w1 id u2 now2).1 := by
    unfold ProjectService.updateProjectSettings
    rw [hget1]
    exact ProjectService.updateProject_fst w1 id u2 now2
  set st2 := st1.updateProject id u2 now2 with hst2
  have hdb2 : (ProjectService.updateProjectSettings w1 id [(k2, v2)] now2).1.handle.db
      = some st2 := by
    rw [hstep2]
    exact World.updateProject_fst_db w1 st1 id u2 now2 hdb1
  set p2 : ProjectRow :=
    { p1 with updatedAt := now2, settings := p1.settings ++ [(k2, v2)] } with hp2
  have hfind2 : st2.projects.find? (fun q => q.id == id) = some p2 := by
    rw [hst2, updateProject_find?, hfind1]
    simp [hpid', hu2, hp2, hp1]
  refine ⟨p2, ?_, ?_, ?_, ?_⟩
  · unfold DbHandle.getProject
    rw [hdb2]
    simp [hfind2]
  · have : p2.settings = (p.settings ++ [(k1, v1)]) ++ [(k2, v2)] := by
      simp [hp2, hp1]
    rw [this, objGet_append, objGet_append, objGet_singleton, objGet_singleton]
    have h21 : (if k2 = k1 then some v2 else none) = (none : Option Int) :=
      if_neg (fun hcon => hkeys hcon.symm)
    have h11 : (if k1 = k1 then some v1 else none) = some v1 := if_pos rfl
    rw [h21, h11]
  · have : p2.settings = (p.settings ++ [(k1, v1)]) ++ [(k2, v2)] := by
      simp [hp2, hp1]
    rw [this, objGet_append, objGet_singleton]
    simp
  · intro k hk1 hk2
    have : p2.settings = (p.settings ++ [(k1, v1)]) ++ [(k2, v2)] := by
      simp [hp2, hp1]
    rw [this, objGet_append, objGet_append, objGet_singleton, objGet_singleton]
    simp [Ne.symm hk1, Ne.symm hk2]

/-- A concrete project under the witness user, for witnesses. -/
def witnessProject : ProjectRow :=
  { id := "p1", ownerUserId := "default-user-001", name := "Proj", description := "",
    createdAt := 0, updatedAt := 0, settings := [] }

/-- A concrete store holding one user and one project. -/
def witnessStore2 : Store :=
  { users := [witnessUser], projects := [witnessProject], sessions := [], images := [],
    conversations := [] }

/-- A concrete world over witnessStore2 with a working durable slot. -/
def witnessWorld2 : World :=
  { handle := { db := some witnessStore2, sqlJs := true, inited := true },
    opfsFile := none, opfsAvailable := true, writeOk := true }

/-- C10 witness: updating the settings of the concrete project with the
entry a=1 and then b=2 stores the merged map with a=1 and b=2 and leaves
all other keys at their original values. -/
theorem updateProjectSettings_merges_witness :
    ∃ p2 : ProjectRow,
      ((ProjectService.updateProjectSettings
          (ProjectService.updateProjectSettings witnessWorld2 "p1" [("a", 1)] 5).1
          "p1" [("b", 2)] 6).1).handle.getProject "p1" = .ok (some p2) ∧
      objGet p2.settings "a" = some 1 ∧
      objGet p2.settings "b" = some 2 ∧
      ∀ k, k ≠ "a" → k ≠ "b" → objGet p2.settings k = objGet witnessProject.settings k :=
  updateProjectSettings_merges witnessWorld2 witnessStore2 witnessProject "p1" "a" "b" 1 2 5 6
    rfl (by decide) (by decide)

/-- C4: deleting an artifact P leaves every artifact A whose parent was P
present in the store with an absent parent reference and all other fields
unchanged — A is not cascaded away (the parent_image_id foreign key is
declared ON DELETE SET NULL). -/
theorem deleteImage_orphans_children (w : World) (st : Store) (A P : ImageRow)
    (hdb : w.handle.db = some st)
    (hA : A ∈ st.images) (hPar : A.parentImageId = some P.id)
    (hAP : A.id ≠ P.id)
    (hnd : (st.images.map ImageRow.id).Nodup) :
    (World.deleteImage w P.id).1.handle.getImage A.id
      = .ok (some { A with parentImageId := none }) := by
  have hdbAfter : (World.deleteImage w P.id).1.handle.db = some (st.deleteImage P.id) := by
    unfold World.deleteImage
    rw [hdb]
    simp [World.persist_fst_handle, World.withDb]
  unfold DbHandle.getImage
  rw [hdbAfter]
  have hfilter : A ∈ st.images.filter (fun i => !(i.id == P.id)) := by
    rw [List.mem_filter]
    exact ⟨hA, by simpa using hAP⟩
  have hndF : ((st.images.filter (fun i => !(i.id == P.id))).map ImageRow.id).Nodup :=
    ((List.filter_sublist _).map ImageRow.id).nodup hnd
  have hfind : (st.images.filter (fun i => !(i.id == P.id))).find?
      (fun i => i.id == A.id) = some A :=
    find?_key_of_mem_nodup ImageRow.id _ A hndF hfilter
  have hmap : ((st.images.filter (fun i => !(i.id == P.id))).map
      (fun i => if i.parentImageId = some P.id then { i with parentImageId := none } else i)).find?
      (fun i => i.id == A.id)
      = some (if A.parentImageId = some P.id then { A with parentImageId := none } else A) := by
    rw [find?_map_congr]
    · rw [hfind]; rfl
    · intro x
      by_cases hx : x.parentImageId = some P.id <;> simp [hx]
  simp only [Store.deleteImage] at hmap ⊢
  rw [hmap, hPar]
  simp

/-- A concrete session for witnesses. -/
def witnessSession : SessionRow :=
  { id := "s1", projectId := "p1", createdByUserId := "default-user-001", name := "Sess",
    createdAt := 0, updatedAt := 0, inputText := "", complexity := "VERY_SIMPLE",
    resolution := "1K", designRequests := "", styleImageBase64 := none }

/-- A concrete initial artifact for witnesses. -/
def witnessImageP : ImageRow :=
  { id := "i1", sessionId := "s1", base64Data := "AAA", prompt := "first",
    createdAt := 1, inputTokens := 10, outputTokens := 20, estimatedCostUsd := 3,
    generationType := .initial, parentImageId := none }

/-- A concrete refinement artifact whose parent is witnessImageP. -/
def witnessImageA : ImageRow :=
  { id := "i2", sessionId := "s1", base64Data := "BBB", prompt := "second",
    createdAt := 2, inputTokens := 30, outputTokens := 40, estimatedCostUsd := 2,
    generationType := .refinement, parentImageId := some "i1" }

/-- A concrete store with one user, one project, one session and a
two-image refinement chain. -/
def witnessStore3 : Store :=
  { users := [witnessUser], projects := [witnessProject], sessions := [witnessSession],
    images := [witnessImageP, witnessImageA], conversations := [] }

/-- A concrete world over witnessStore3. -/
def witnessWorld3 : World :=
  { handle := { db := some witnessStore3, sqlJs := true, inited := true },
    opfsFile := none, opfsAvailable := true, writeOk := true }

/-- C4 witness: deleting the concrete parent artifact leaves the child
readable with an absent parent and all other fields intact. -/
theorem deleteImage_orphans_children_witness :
    (World.deleteImage witnessWorld3 "i1").1.handle.getImage "i2"
      = .ok (some { witnessImageA with parentImageId := none }) := by
  have h := deleteImage_orphans_children witnessWorld3 witnessStore3
    witnessImageA witnessImageP rfl (by decide) (by decide) (by decide) (by decide)
  simpa using h

/-- C5: for every state of the store — hence after any sequence of creates
and deletes — getSessionStats on a generation unit equals the pointwise
sums over the artifacts of that unit: imageCount is the number of
artifacts, totalCost the sum of their estimated costs, inputTokens and
outputTokens the sums of the per-artifact token counts, and totalTokens is
inputTokens + outputTokens. -/
theorem getSessionStats_pointwise (h : DbHandle) (st : Store) (sid : String)
    (hdb : h.db = some st) :
    ∃ stats : SessionStats,
      SessionService.getSessionStats h sid = .ok stats ∧
      stats.imageCount = (st.images.filter (fun i => i.sessionId == sid)).length ∧
      stats.totalCost
        = ((st.images.filter (fun i => i.sessionId == sid)).map ImageRow.estimatedCostUsd).sum ∧
      stats.inputTokens
        = ((st.images.filter (fun i => i.sessionId == sid)).map ImageRow.inputTokens).sum ∧
      stats.outputTokens
        = ((st.images.filter (fun i => i.sessionId == sid)).map ImageRow.outputTokens).sum ∧
      stats.totalTokens = stats.inputTokens + stats.outputTokens := by
  set l := st.images.filter (fun i => i.sessionId == sid) with hl
  have hperm : (sortByKey ImageRow.createdAt l).Perm l := sortByKey_perm _ _
  have himg : h.getImagesBySession sid = .ok (sortByKey ImageRow.createdAt l) := by
    unfold DbHandle.getImagesBySession
    rw [hdb]
  have hcost : (sortByKey ImageRow.createdAt l).foldl
      (fun total img => total + img.estimatedCostUsd) 0
      = (l.map ImageRow.estimatedCostUsd).sum := by
    rw [foldl_add_map, zero_add]
    exact (hperm.map ImageRow.estimatedCostUsd).sum_eq
  have hin : (sortByKey ImageRow.createdAt l).foldl
      (fun total img => total + img.inputTokens) 0
      = (l.map ImageRow.inputTokens).sum := by
    rw [foldl_add_map, zero_add]
    exact (hperm.map ImageRow.inputTokens).sum_eq
  have hout : (sortByKey ImageRow.createdAt l).foldl
      (fun total img => total + img.outputTokens) 0
      = (l.map ImageRow.outputTokens).sum := by
    rw [foldl_add_map, zero_add]
    exact (hperm.map ImageRow.outputTokens).sum_eq
  unfold SessionService.getSessionStats
  rw [himg]
  refine ⟨_, rfl, ?_, ?_, ?_, ?_, ?_⟩ <;>
    simp [hcost, hin, hout, hperm.length_eq]

/-- C5 witness: on the concrete two-image store the statistics equal the
pointwise sums (count 2, cost 5, tokens 40/60, total 100). -/
theorem getSessionStats_pointwise_witness :
    ∃ stats : SessionStats,
      SessionService.getSessionStats
        ({ db := some witnessStore3, sqlJs := true, inited := true } : DbHandle) "s1"
        = .ok stats ∧
      stats.imageCount
        = (witnessStore3.images.filter (fun i => i.sessionId == "s1")).length ∧
      stats.totalCost
        = ((witnessStore3.images.filter (fun i => i.sessionId == "s1")).map
            ImageRow.estimatedCostUsd).sum ∧
      stats.inputTokens
        = ((witnessStore3.images.filter (fun i => i.sessionId == "s1")).map
            ImageRow.inputTokens).sum ∧
      stats.outputTokens
        = ((witnessStore3.images.filter (fun i => i.sessionId == "s1")).map
            ImageRow.outputTokens).sum ∧
      stats.totalTokens = stats.inputTokens + stats.outputTokens :=
  getSessionStats_pointwise
    { db := some witnessStore3, sqlJs := true, inited := true } witnessStore3 "s1" rfl

/-- Membership gives a true contains test on string lists. -/
theorem contains_true_of_mem (l : List String) (a : String) (h : a ∈ l) :
    l.contains a = true := by
  induction l with
  | nil => cases h
  | cons x xs ih =>
    rcases List.mem_cons.mp h with rfl | hmem
    · simp
    · simp [Or.inr hmem]

/-- The image rewrite applied by deleteProject to surviving rows preserves
the id and the session id: it only nulls the parent reference. -/
theorem deleteProject_imageFix_fields (deadImages : List String) (x : ImageRow) :
    (match x.parentImageId with
      | some q => if deadImages.contains q then { x with parentImageId := none } else x
      | none => x).id = x.id ∧
    (match x.parentImageId with
      | some q => if deadImages.contains q then { x with parentImageId := none } else x
      | none => x).sessionId = x.sessionId := by
  cases h : x.parentImageId with
  | none => exact ⟨rfl, rfl⟩
  | some q => by_cases hq : q ∈ deadImages <;> simp [h, hq]

/-- The conversation rewrite applied by deleteProject to surviving rows
preserves the session id: it only nulls the image reference. -/
theorem deleteProject_convFix_sessionId (deadImages : List String) (c : ConversationRow) :
    (match c.imageId with
      | some q => if deadImages.contains q then { c with imageId := none } else c
      | none => c).sessionId = c.sessionId := by
  cases h : c.imageId with
  | none => rfl
  | some q => by_cases hq : q ∈ deadImages <;> simp [h, hq]

/-- C1: deleting a workspace removes every generation unit whose project id
is that workspace, and every artifact and every message belonging to those
units: after deleteProject, reading any such session by id yields ok none,
reading the conversations of such a session yields the empty list, and
reading any image of such a session by id yields ok none.  The cascade is
the ON DELETE CASCADE chain of SCHEMA_DDL, active because initialization
turns PRAGMA foreign_keys on. -/
theorem deleteProject_cascades (w : World) (st : Store) (pid : String)
    (hdb : w.handle.db = some st)
    (hndS : (st.sessions.map SessionRow.id).Nodup)
    (hndI : (st.images.map ImageRow.id).Nodup) :
    ∀ s ∈ st.sessions, s.projectId = pid →
      (World.deleteProject w pid).1.handle.getSession s.id = .ok none ∧
      (World.deleteProject w pid).1.handle.getConversationsBySession s.id = .ok [] ∧
      ∀ i ∈ st.images, i.sessionId = s.id →
        (World.deleteProject w pid).1.handle.getImage i.id = .ok none := by
  intro s hs hsp
  have hdbAfter : (World.deleteProject w pid).1.handle.db = some (st.deleteProject pid) := by
    unfold World.deleteProject
    rw [hdb]
    simp [World.persist_fst_handle, World.withDb]
  have hsid_dead :
      s.id ∈ (st.sessions.filter (fun x => x.projectId == pid)).map SessionRow.id :=
    List.mem_map_of_mem _ (List.mem_filter.mpr ⟨hs, by simpa using hsp⟩)
  refine ⟨?_, ?_, ?_⟩
  · unfold DbHandle.getSession
    rw [hdbAfter]
    have hnone : (st.deleteProject pid).sessions.find? (fun x => x.id == s.id) = none := by
      rw [List.find?_eq_none]
      intro x hx hbeq
      simp only [Store.deleteProject] at hx
      rw [List.mem_filter] at hx
      have hxid : x.id = s.id := by simpa using hbeq
      have hxs : x = s := key_inj_of_nodup SessionRow.id st.sessions hndS hx.1 hs hxid
      have : (x.projectId == pid) = false := by simpa using hx.2
      rw [hxs, hsp] at this
      simp at this
    simp [hnone]
  · unfold DbHandle.getConversationsBySession
    rw [hdbAfter]
    have hfil : (st.deleteProject pid).conversations.filter
        (fun c => c.sessionId == s.id) = [] := by
      rw [List.filter_eq_nil_iff]
      intro c hc hbeq
      simp only [Store.deleteProject] at hc
      rw [List.mem_map] at hc
      obtain ⟨c0, hc0, hcc⟩ := hc
      rw [List.mem_filter] at hc0
      have hsidc : c.sessionId = c0.sessionId := by
        rw [← hcc]
        exact deleteProject_convFix_sessionId _ c0
      have hcontains : ((st.sessions.filter (fun x => x.projectId == pid)).map
          SessionRow.id).contains c0.sessionId = false := by
        simpa using hc0.2
      have hcsid : c.sessionId = s.id := by simpa using hbeq
      rw [hcsid] at hsidc
      rw [← hsidc] at hcontains
      rw [contains_true_of_mem _ _ hsid_dead] at hcontains
      simp at hcontains
    simp [hfil, sortByKey]
  · intro i hi hisid
    unfold DbHandle.getImage
    rw [hdbAfter]
    have hnone : (st.deleteProject pid).images.find? (fun x => x.id == i.id) = none := by
      rw [List.find?_eq_none]
      intro x hx hbeq
      simp only [Store.deleteProject] at hx
      rw [List.mem_map] at hx
      obtain ⟨x0, hx0, hxx⟩ := hx
      rw [List.mem_filter] at hx0
      have hfields := deleteProject_imageFix_fields
        ((st.images.filter (fun j =>
          ((st.sessions.filter (fun x => x.projectId == pid)).map
            SessionRow.id).contains j.sessionId)).map ImageRow.id) x0
      have hxid : x.id = x0.id := by rw [← hxx]; exact hfields.1
      have hxi : x0.id = i.id := by
        rw [← hxid]
        simpa using hbeq
      have hx0i : x0 = i := key_inj_of_nodup ImageRow.id st.images hndI hx0.1 hi hxi
      have hcontains : ((st.sessions.filter (fun x => x.projectId == pid)).map
          SessionRow.id).contains x0.sessionId = false := by
        simpa using hx0.2
      rw [hx0i, hisid] at hcontains
      rw [contains_true_of_mem _ _ hsid_dead] at hcontains
      simp at hcontains
    simp [hnone]

/-- A concrete store with a conversation row attached to the witness
session, for the cascade witness. -/
def witnessConversation : ConversationRow :=
  { id := "c1", sessionId := "s1", imageId := some "i1", role := .user,
    content := "make an infographic", createdAt := 3, metadata := [] }

/-- witnessStore3 with the conversation row added. -/
def witnessStore4 : Store :=
  { witnessStore3 with conversations := [witnessConversation] }

/-- A concrete world over witnessStore4. -/
def witnessWorld4 : World :=
  { handle := { db := some witnessStore4, sqlJs := true, inited := true },
    opfsFile := none, opfsAvailable := true, writeOk := true }

/-- C1 witness: deleting the concrete project removes its session, the
conversations of the session, and both images of the session. -/
theorem deleteProject_cascades_witness :
    (World.deleteProject witnessWorld4 "p1").1.handle.getSession "s1" = .ok none ∧
    (World.deleteProject witnessWorld4 "p1").1.handle.getConversationsBySession "s1"
      = .ok [] ∧
    (World.deleteProject witnessWorld4 "p1").1.handle.getImage "i1" = .ok none ∧
    (World.deleteProject witnessWorld4 "p1").1.handle.getImage "i2" = .ok none := by
  have h := deleteProject_cascades witnessWorld4 witnessStore4 "p1" rfl
    (by decide) (by decide) witnessSession (by decide) (by decide)
  refine ⟨h.1, h.2.1, ?_, ?_⟩
  · have := h.2.2 witnessImageP (by decide) (by decide)
    simpa using this
  · have := h.2.2 witnessImageA (by decide) (by decide)
    simpa using this

/-- C6: exporting the snapshot, resetting the store, and importing the
exported bytes yields a store whose read operations return results
pointwise equal to the pre-export state for every entity: every
read-by-id and every parent-scoped listing agrees with its pre-export
value at every id. -/
theorem export_reset_import_roundtrip (w : World) (st : Store)
    (hdb : w.handle.db = some st) (hjs : w.handle.sqlJs = true) :
    ∃ snapshot : Store,
      w.exportDatabase = .ok snapshot ∧
      (∀ id : String,
        ((w.reset).importDatabase snapshot).1.handle.getUser id = w.handle.getUser id ∧
        ((w.reset).importDatabase snapshot).1.handle.getProject id = w.handle.getProject id ∧
        ((w.reset).importDatabase snapshot).1.handle.getSession id = w.handle.getSession id ∧
        ((w.reset).importDatabase snapshot).1.handle.getImage id = w.handle.getImage id ∧
        ((w.reset).importDatabase snapshot).1.handle.getImagesBySession id
          = w.handle.getImagesBySession id ∧
        ((w.reset).importDatabase snapshot).1.handle.getConversationsBySession id
          = w.handle.getConversationsBySession id ∧
        ((w.reset).importDatabase snapshot).1.handle.getSessionsByProject id
          = w.handle.getSessionsByProject id) := by
  refine ⟨st, ?_, ?_⟩
  · unfold World.exportDatabase
    rw [hdb]
  · have hjs2 : (w.reset).handle.sqlJs = true := by
      simp [World.reset, hjs]
    have hdb2 : ((w.reset).importDatabase st).1.handle.db = some st := by
      unfold World.importDatabase
      rw [hjs2]
      simp only [if_true]
      rw [World.persist_fst_handle]
    intro id
    refine ⟨?_, ?_, ?_, ?_, ?_, ?_, ?_⟩ <;>
      simp only [DbHandle.getUser, DbHandle.getProject, DbHandle.getSession,
        DbHandle.getImage, DbHandle.getImagesBySession,
        DbHandle.getConversationsBySession, DbHandle.getSessionsByProject,
        hdb, hdb2]

/-- C6 witness: the concrete populated world round-trips -- after export,
reset, and import of the exported bytes, every read at the ids in the
store (and at a missing id) equals its pre-export result. -/
theorem export_reset_import_roundtrip_witness :
    ∃ snapshot : Store,
      witnessWorld4.exportDatabase = .ok snapshot ∧
      (∀ id : String,
        ((witnessWorld4.reset).importDatabase snapshot).1.handle.getUser id
          = witnessWorld4.handle.getUser id ∧
        ((witnessWorld4.reset).importDatabase snapshot).1.handle.getProject id
          = witnessWorld4.handle.getProject id ∧
        ((witnessWorld4.reset).importDatabase snapshot).1.handle.getSession id
          = witnessWorld4.handle.getSession id ∧
        ((witnessWorld4.reset).importDatabase snapshot).1.handle.getImage id
          = witnessWorld4.handle.getImage id ∧
        ((witnessWorld4.reset).importDatabase snapshot).1.handle.getImagesBySession id
          = witnessWorld4.handle.getImagesBySession id ∧
        ((witnessWorld4.reset).importDatabase snapshot).1.handle.getConversationsBySession id
          = witnessWorld4.handle.getConversationsBySession id ∧
        ((witnessWorld4.reset).importDatabase snapshot).1.handle.getSessionsByProject id
          = witnessWorld4.handle.getSessionsByProject id) :=
  export_reset_import_roundtrip witnessWorld4 witnessStore4 rfl rfl

/-- Appending a row whose predicate holds to rows on which it fails makes
find? return the appended row. -/
theorem find?_append_last {α : Type} (l : List α) (x : α) (p : α → Bool)
    (hl : ∀ y ∈ l, ¬ p y = true) (hx : p x = true) :
    (l ++ [x]).find? p = some x := by
  induction l with
  | nil => simp [List.find?, hx]
  | cons a as ih =>
    rw [List.cons_append, List.find?_cons_of_neg _ (hl a (List.mem_cons_self a as))]
    exact ih (fun y hy => hl y (List.mem_cons_of_mem a hy))

/-- C7: a failed flush never rolls back the in-memory mutation that
triggered it, and durable-storage unavailability does not fail the
mutation.  For saveImage with a successful INSERT: the working copy always
holds the inserted row afterwards and getImage reads it back; when OPFS is
unavailable the call completes successfully (returning the saved row, with
only a console warning); when OPFS is available but the durable write
fails, the call surfaces PERSIST_FAILED yet the row is still readable from
the working copy. -/
theorem saveImage_mutation_survives_persist (w : World) (st st1 : Store)
    (id : String) (now : Nat) (img : NewImage)
    (hdb : w.handle.db = some st)
    (hins : st.insertImage id now img = .ok st1) :
    (World.saveImage w id now img).1.handle.getImage id
        = .ok (some (img.toRow id now)) ∧
    (w.opfsAvailable = false →
      (World.saveImage w id now img).2 = .ok (img.toRow id now)) ∧
    (w.opfsAvailable = true → w.writeOk = false →
      (World.saveImage w id now img).2 = .error .persistFailed) := by
  -- shape of the successfully inserted store
  have hfresh : st.images.any (fun i => i.id == id) = false := by
    unfold Store.insertImage at hins
    by_cases h : st.images.any (fun i => i.id == id) = true
    · rw [if_pos h] at hins; cases hins
    · simpa using h
  have hshape : st1 = { st with images := st.images ++ [img.toRow id now] } := by
    unfold Store.insertImage at hins
    split at hins
    · cases hins
    · split at hins
      · cases hins
      · split at hins
        · cases hins; rfl
        · split at hins
          · cases hins; rfl
          · cases hins
  -- the new row is found at the end of the table
  have hnotin : ∀ y ∈ st.images, ¬ (y.id == id) = true := by
    have h1 : ∀ x ∈ st.images, ¬ x.id = id := by simpa using hfresh
    intro y hy
    simpa using h1 y hy
  have hfind : st1.images.find? (fun i => i.id == id) = some (img.toRow id now) := by
    rw [hshape]
    exact find?_append_last _ _ _ hnotin (by simp [NewImage.toRow])
  -- unfold saveImage
  unfold World.saveImage
  rw [hdb]
  simp only [hins]
  rcases hp : ((w.withDb st1).persist) with ⟨w2, pr⟩
  have hw2 : w2.handle = (w.withDb st1).handle := by
    have := World.persist_fst_handle (w.withDb st1)
    rw [hp] at this
    exact this
  have hread : w2.handle.getImage id = .ok (some (img.toRow id now)) := by
    unfold DbHandle.getImage
    rw [hw2]
    simp [World.withDb, hfind]
  refine ⟨?_, ?_, ?_⟩
  · cases pr <;> simpa using hread
  · intro hna
    unfold World.persist at hp
    simp only [World.withDb] at hp
    rw [hna] at hp
    simp at hp
    rcases hp with ⟨-, hpr⟩
    cases pr with
    | ok u => simp
    | error e => simp at hpr
  · intro ha hwr
    unfold World.persist at hp
    simp only [World.withDb] at hp
    rw [ha, hwr] at hp
    simp at hp
    rcases hp with ⟨-, hpr⟩
    cases pr with
    | ok u => simp at hpr
    | error e =>
      cases hpr
      simp

/-- witnessStore3 in a world without OPFS support. -/
def witnessWorldNoOpfs : World :=
  { handle := { db := some witnessStore3, sqlJs := true, inited := true },
    opfsFile := none, opfsAvailable := false, writeOk := true }

/-- witnessStore3 in a world whose durable write fails. -/
def witnessWorldBadWrite : World :=
  { handle := { db := some witnessStore3, sqlJs := true, inited := true },
    opfsFile := none, opfsAvailable := true, writeOk := false }

/-- A fresh refinement image to save in the C7 witness. -/
def witnessNewImage : NewImage :=
  { sessionId := "s1", base64Data := "CCC", prompt := "third", inputTokens := 1,
    outputTokens := 2, estimatedCostUsd := 0, generationType := .refinement,
    parentImageId := some "i2" }

/-- C7 witness: on the concrete store, saving an image with OPFS
unavailable succeeds and the row is readable; saving with a failing
durable write surfaces the persist failure yet the row is still
readable. -/
theorem saveImage_mutation_survives_persist_witness :
    ((World.saveImage witnessWorldNoOpfs "i3" 9 witnessNewImage).1.handle.getImage "i3"
        = .ok (some (witnessNewImage.toRow "i3" 9)) ∧
      (World.saveImage witnessWorldNoOpfs "i3" 9 witnessNewImage).2
        = .ok (witnessNewImage.toRow "i3" 9)) ∧
    ((World.saveImage witnessWorldBadWrite "i3" 9 witnessNewImage).1.handle.getImage "i3"
        = .ok (some (witnessNewImage.toRow "i3" 9)) ∧
      (World.saveImage witnessWorldBadWrite "i3" 9 witnessNewImage).2
        = .error .persistFailed) := by
  have h1 := saveImage_mutation_survives_persist witnessWorldNoOpfs witnessStore3 _
    "i3" 9 witnessNewImage rfl rfl
  have h2 := saveImage_mutation_survives_persist witnessWorldBadWrite witnessStore3 _
    "i3" 9 witnessNewImage rfl rfl
  exact ⟨⟨h1.1, h1.2.1 rfl⟩, ⟨h2.1, h2.2.2 rfl rfl⟩⟩

-- ============================================
-- C2: the image-history walk
-- ============================================

/-- An image whose parent pointer is itself: corrupted data that the
insert operations of the code itself cannot create, but over which the claim
ranges. -/
def cyclicImage : ImageRow :=
  { id := "a", sessionId := "s1", base64Data := "", prompt := "loop",
    createdAt := 0, inputTokens := 0, outputTokens := 0, estimatedCostUsd := 0,
    generationType := .refinement, parentImageId := some "a" }

/-- A store corrupted by hand, holding the self-parented image. -/
def cyclicStore : Store :=
  { users := [witnessUser], projects := [witnessProject], sessions := [witnessSession],
    images := [cyclicImage], conversations := [] }

/-- One unfolding step of the loop at positive fuel on a present image. -/
theorem imageHistoryLoop_succ_some (st : Store) (n : Nat) (img : ImageRow)
    (acc : List ImageRow) :
    imageHistoryLoop st (n + 1) (some img) acc =
      match img.parentImageId with
      | none => some (img :: acc)
      | some pid =>
        imageHistoryLoop st n (st.images.find? (fun i => i.id == pid)) (img :: acc) := by
  rfl

/-- On the cyclic store the loop never leaves the self-parented image: no
amount of fuel completes it. -/
theorem imageHistoryLoop_cyclic_none :
    ∀ (fuel : Nat) (acc : List ImageRow),
      imageHistoryLoop cyclicStore fuel (some cyclicImage) acc = none := by
  intro fuel
  induction fuel with
  | zero => intro acc; rfl
  | succ n ih =>
    intro acc
    have hstep : imageHistoryLoop cyclicStore (n + 1) (some cyclicImage) acc
        = imageHistoryLoop cyclicStore n (some cyclicImage) (cyclicImage :: acc) := by
      rfl
    rw [hstep]
    exact ih (cyclicImage :: acc)

/-- C2 counterexample: the ancestor walk does not terminate on every store
state.  On a store holding a single artifact whose parent pointer is
itself (corrupted data), getImageHistory never finishes: the unbounded
while loop of the source revisits the same image forever, and no
artifact-count bound or failure path exists in the code. -/
theorem getImageHistory_diverges_on_cycle :
    ¬ ∃ fuel : Nat, (SessionService.getImageHistory cyclicStore "a" fuel).isSome = true := by
  rintro ⟨fuel, hsome⟩
  have hfind : cyclicStore.images.find? (fun i => i.id == "a") = some cyclicImage := by
    decide
  unfold SessionService.getImageHistory at hsome
  rw [hfind, imageHistoryLoop_cyclic_none fuel []] at hsome
  cases hsome

/-- Along a rank that strictly decreases across resolved parent links, the
loop terminates once the fuel exceeds the rank of the current image, and
the history grows by at most one entry per fuel unit. -/
theorem imageHistoryLoop_ranked (st : Store) (r : ImageRow → Nat)
    (hr : ∀ i ∈ st.images, ∀ pid p, i.parentImageId = some pid →
      st.images.find? (fun j => j.id == pid) = some p → r p < r i) :
    ∀ (fuel : Nat) (cur : Option ImageRow) (acc : List ImageRow),
      (cur = none ∨ ∃ img, cur = some img ∧ img ∈ st.images ∧ r img < fuel) →
      ∃ hist, imageHistoryLoop st fuel cur acc = some hist ∧
        hist.length ≤ fuel + acc.length := by
  intro fuel
  induction fuel with
  | zero =>
    intro cur acc hcur
    rcases hcur with rfl | ⟨img, rfl, hmem, hlt⟩
    · exact ⟨acc, rfl, by omega⟩
    · cases Nat.not_lt_zero _ hlt
  | succ n ih =>
    intro cur acc hcur
    rcases hcur with rfl | ⟨img, rfl, hmem, hlt⟩
    · exact ⟨acc, rfl, Nat.le_add_left _ _⟩
    · cases hpar : img.parentImageId with
      | none =>
        refine ⟨img :: acc, ?_, ?_⟩
        · show imageHistoryLoop st (n + 1) (some img) acc = some (img :: acc)
          rw [imageHistoryLoop_succ_some, hpar]
        · simp
          omega
      | some pid =>
        have hnext : imageHistoryLoop st (n + 1) (some img) acc
            = imageHistoryLoop st n (st.images.find? (fun j => j.id == pid)) (img :: acc) := by
          rw [imageHistoryLoop_succ_some, hpar]
        rw [hnext]
        have hcond : st.images.find? (fun j => j.id == pid) = none ∨
            ∃ p, st.images.find? (fun j => j.id == pid) = some p ∧ p ∈ st.images ∧ r p < n := by
          cases hfind : st.images.find? (fun j => j.id == pid) with
          | none => exact Or.inl rfl
          | some p =>
            refine Or.inr ⟨p, rfl, List.mem_of_find?_eq_some hfind, ?_⟩
            have hlt2 := hr img hmem pid p hpar hfind
            omega
        obtain ⟨hist, hrun, hlen⟩ := ih (st.images.find? (fun j => j.id == pid)) (img :: acc) hcond
        refine ⟨hist, hrun, ?_⟩
        simp at hlen ⊢
        omega

/-- C2 amended: on every store whose parent links strictly decrease a rank
bounded by the artifact count — which includes every store that the insert
operations of the code can build, since a parent always precedes its children — the
walk terminates with fuel equal to the total artifact count and returns a
history no longer than that count.  The bound lives in this analysis, not
in the code: the source loop carries no counter and no failure path, and
diverges on cyclic corrupted data. -/
theorem getImageHistory_terminates_on_ranked (st : Store) (r : ImageRow → Nat)
    (imageId : String)
    (hr : ∀ i ∈ st.images, ∀ pid p, i.parentImageId = some pid →
      st.images.find? (fun j => j.id == pid) = some p → r p < r i)
    (hb : ∀ i ∈ st.images, r i < st.images.length) :
    ∃ hist, SessionService.getImageHistory st imageId st.images.length = some hist ∧
      hist.length ≤ st.images.length := by
  unfold SessionService.getImageHistory
  have hcond : st.images.find? (fun i => i.id == imageId) = none ∨
      ∃ img, st.images.find? (fun i => i.id == imageId) = some img ∧
        img ∈ st.images ∧ r img < st.images.length := by
    cases hfind : st.images.find? (fun i => i.id == imageId) with
    | none => exact Or.inl rfl
    | some img =>
      have hmem := List.mem_of_find?_eq_some hfind
      exact Or.inr ⟨img, rfl, hmem, hb img hmem⟩
  obtain ⟨hist, hrun, hlen⟩ := imageHistoryLoop_ranked st r hr st.images.length
    (st.images.find? (fun i => i.id == imageId)) [] hcond
  exact ⟨hist, hrun, by simpa using hlen⟩

/-- C2 witness: on the concrete two-image chain, ranked by position in the
refinement chain, the walk over the child returns the two-image history
oldest-first within the artifact-count bound. -/
theorem getImageHistory_terminates_on_ranked_witness :
    ∃ hist, SessionService.getImageHistory witnessStore3 "i2" witnessStore3.images.length
        = some hist ∧ hist.length ≤ witnessStore3.images.length := by
  refine getImageHistory_terminates_on_ranked witnessStore3
    (fun i => i.createdAt - 1) "i2" ?_ ?_
  · intro i hi pid p hpid hfind
    simp only [witnessStore3, List.mem_cons, List.not_mem_nil, or_false] at hi
    rcases hi with rfl | rfl
    · simp [witnessImageP] at hpid
    · obtain rfl : pid = "i1" := by simpa [witnessImageA] using hpid.symm
      obtain rfl : p = witnessImageP := by
        have hcomp : witnessStore3.images.find? (fun j => j.id == "i1")
            = some witnessImageP := by decide
        rw [hcomp] at hfind
        exact (Option.some_inj.mp hfind.symm)
      simp [witnessImageP, witnessImageA]
  · intro i hi
    simp only [witnessStore3, List.mem_cons, List.not_mem_nil, or_false] at hi
    rcases hi with rfl | rfl
    · simp [witnessStore3, witnessImageP]
    · simp [witnessStore3, witnessImageA]

-- ============================================
-- C3: the parent-pointer forest invariant
-- ============================================

/-- The kind/parent correlation asserted by the claim: refinement
artifacts always carry a parent, initial artifacts never do. -/
def Store.kindParentConsistent (st : Store) : Prop :=
  ∀ i ∈ st.images,
    (i.generationType = .refinement → i.parentImageId ≠ none) ∧
    (i.generationType = .initial → i.parentImageId = none)

instance (st : Store) : Decidable st.kindParentConsistent := by
  unfold Store.kindParentConsistent; infer_instance

/-- C3 counterexample: a state reachable by the insert
operations violates the claimed forest shape.  Starting from the empty
database, creating a user, a project, a session, and then saving an image
of kind refinement with an absent parent id all succeed — saveImage and the
schema never tie generation_type to parent_image_id — leaving a store that
holds a refinement artifact with no parent. -/
theorem saveImage_allows_parentless_refinement :
    ∃ st1 st2 st3 st4 : Store,
      Store.empty.insertUser "u" "User" "u@example.com" 0 [] = .ok st1 ∧
      st1.insertProject "p" "u" "Proj" "" 1 [] = .ok st2 ∧
      st2.insertSession "s" "p" "u" "Sess" 2 "" "VERY_SIMPLE" "1K" "" none = .ok st3 ∧
      st3.insertImage "i" 3
        { sessionId := "s", base64Data := "", prompt := "", inputTokens := 0,
          outputTokens := 0, estimatedCostUsd := 0, generationType := .refinement,
          parentImageId := none } = .ok st4 ∧
      ¬ st4.kindParentConsistent := by
  exact ⟨_, _, _, _, rfl, rfl, rfl, rfl, by decide⟩

/-- C3 amended: the enforceable part of the claim holds — saveImage with a
parent id that resolves to no existing artifact (and is not the fresh row
id) fails with a constraint error and leaves the world unchanged, so no
creation introduces a dangling parent reference; but the kind/parent
correlation of the original claim is not enforced, as the counterexample
shows. -/
theorem saveImage_dangling_parent_fails (w : World) (st : Store) (id : String)
    (now : Nat) (img : NewImage) (pid : String)
    (hdb : w.handle.db = some st)
    (hpid : img.parentImageId = some pid)
    (hne : pid ≠ id)
    (hnores : ∀ i ∈ st.images, i.id ≠ pid) :
    World.saveImage w id now img = (w, .error .sqlConstraint) := by
  have hins : st.insertImage id now img = .error .sqlConstraint := by
    unfold Store.insertImage
    by_cases h1 : (st.images.any fun i => i.id == id) = true
    · rw [if_pos h1]
    · rw [if_neg h1]
      by_cases h2 : (st.sessions.any fun s => s.id == img.sessionId) = true
      · rw [if_neg (by simp [h2])]
        rw [hpid]
        have hcond : ¬ ((pid == id) = true ∨ (st.images.any fun i => i.id == pid) = true) := by
          rintro (hc | hc)
          · exact hne (by simpa using hc)
          · rw [List.any_eq_true] at hc
            obtain ⟨x, hx, hxid⟩ := hc
            exact hnores x hx (by simpa using hxid)
        simp only [if_neg hcond]
      · rw [if_pos (by simpa using h2)]
  unfold World.saveImage
  rw [hdb]
  simp only [hins]

/-- C3 witness: saving an image whose parent id "ghost" resolves to no
artifact in the concrete store fails with a constraint error and leaves
the world unchanged. -/
theorem saveImage_dangling_parent_fails_witness :
    World.saveImage witnessWorld3 "i9" 9
      { sessionId := "s1", base64Data := "", prompt := "x", inputTokens := 0,
        outputTokens := 0, estimatedCostUsd := 0, generationType := .refinement,
        parentImageId := some "ghost" }
      = (witnessWorld3, .error .sqlConstraint) :=
  saveImage_dangling_parent_fails witnessWorld3 witnessStore3 "i9" 9
    { sessionId := "s1", base64Data := "", prompt := "x", inputTokens := 0,
      outputTokens := 0, estimatedCostUsd := 0, generationType := .refinement,
      parentImageId := some "ghost" } "ghost" rfl rfl (by decide) (by decide)

end SlideDesigner
